import Mathlib

/-!
# Shallow embedding of the coreminer debugging engine

This file embeds the core of the `coreminer` debugger (src/debugger.rs,
src/dwarf_parse.rs, src/disassemble.rs, src/errors.rs) in Lean 4 and proves
properties of it.  Machine integers are modelled as `Nat` (registers are
64-bit; the register file model stores the written value, and width-bounded
hypotheses appear where a claim quantifies over representable values).
Fallible Rust code returning `Result` is modelled with `Except`; a Rust
panic (out-of-bounds index, `unimplemented!`, `todo!`, explicit `panic!`)
is modelled as `Option.none` in an outer `Option` layer.

The tracee process (its registers and memory, mutated through ptrace) is
modelled explicitly as a `Tracee` record carried next to the `Debugger`
state; the effect of letting the tracee run (single-step or continue) is an
arbitrary parameter function, since the engine makes no assumption about
it.  The sequence of ptrace-level actions a procedure performs is recorded
as a list of `Event`s, so that ordering claims can be stated as equalities
of event traces.

`src/breakpoint.rs` is not part of the provided sources (only its callers
in src/debugger.rs are), so `Breakpoint` and its `enable`/`disable`/drop
behaviour are modelled from the specification (§3 and §4.3); each such
definition is marked `Modelled from the spec:` in its doc comment.
-/

namespace Coreminer

/-- Absolute virtual address in the tracee, `usize` in the source. -/
abbrev Addr := Nat

/-- One byte of tracee memory. -/
abbrev Byte := Nat

/-- Tracee memory, byte addressed.  Breakpoint patching only ever changes
the least-significant byte of the word at the breakpoint address, which at
byte granularity is the single byte at that address. -/
abbrev Memory := Addr → Byte

/-- The error enum of src/errors.rs (data-free model: payloads of the
variants play no role in any claim, only the variant identity does). -/
inductive DebuggerError where
  | Os
  | Io
  | ExecutableDoesNotExist
  | ExecutableIsNotAFile
  | CStringConv
  | NoDebugee
  | BreakpointIsAlreadyEnabled
  | BreakpointIsAlreadyDisabled
  | AlreadyRunning
  | HighAddrExistsButNotLowAddr
  deriving DecidableEq, Repr

/-- The register-name enum of src/ui.rs (declared there, used by
src/debugger.rs `get_reg`/`set_reg`; the variant list is exactly the one
matched in those two functions). -/
inductive Register where
  | r9 | r8 | r10 | r11 | r12 | r13 | r14 | r15
  | rip | rbp | rax | rcx | rbx | rdx | rsi | rsp | rdi
  | orig_rax | eflags | es | cs | ss | fs_base | fs | gs_base | gs | ds
  deriving DecidableEq, Repr

/-- `nix::libc::user_regs_struct`: the full register bank returned by
`ptrace::getregs`, one `u64` field per register. -/
structure UserRegs where
  r9 : Nat
  r8 : Nat
  r10 : Nat
  r11 : Nat
  r12 : Nat
  r13 : Nat
  r14 : Nat
  r15 : Nat
  rip : Nat
  rbp : Nat
  rax : Nat
  rcx : Nat
  rbx : Nat
  rdx : Nat
  rsi : Nat
  rsp : Nat
  rdi : Nat
  orig_rax : Nat
  eflags : Nat
  es : Nat
  cs : Nat
  ss : Nat
  fs_base : Nat
  fs : Nat
  gs_base : Nat
  gs : Nat
  ds : Nat
  deriving DecidableEq, Repr

/-- The register selection in `Debugger::get_reg` (src/debugger.rs:312-340):
one match arm per register. -/
def regValue (regs : UserRegs) : Register → Nat
  | .r9 => regs.r9
  | .r8 => regs.r8
  | .r10 => regs.r10
  | .r11 => regs.r11
  | .r12 => regs.r12
  | .r13 => regs.r13
  | .r14 => regs.r14
  | .r15 => regs.r15
  | .rip => regs.rip
  | .rbp => regs.rbp
  | .rax => regs.rax
  | .rcx => regs.rcx
  | .rbx => regs.rbx
  | .rdx => regs.rdx
  | .rsi => regs.rsi
  | .rsp => regs.rsp
  | .rdi => regs.rdi
  | .orig_rax => regs.orig_rax
  | .eflags => regs.eflags
  | .es => regs.es
  | .cs => regs.cs
  | .ss => regs.ss
  | .fs_base => regs.fs_base
  | .fs => regs.fs
  | .gs_base => regs.gs_base
  | .gs => regs.gs
  | .ds => regs.ds

/-- The register update in `Debugger::set_reg` (src/debugger.rs:350-378):
one match arm per register, mutating a single field of the snapshot. -/
def regUpdate (regs : UserRegs) : Register → Nat → UserRegs
  | .r9, v => { regs with r9 := v }
  | .r8, v => { regs with r8 := v }
  | .r10, v => { regs with r10 := v }
  | .r11, v => { regs with r11 := v }
  | .r12, v => { regs with r12 := v }
  | .r13, v => { regs with r13 := v }
  | .r14, v => { regs with r14 := v }
  | .r15, v => { regs with r15 := v }
  | .rip, v => { regs with rip := v }
  | .rbp, v => { regs with rbp := v }
  | .rax, v => { regs with rax := v }
  | .rcx, v => { regs with rcx := v }
  | .rbx, v => { regs with rbx := v }
  | .rdx, v => { regs with rdx := v }
  | .rsi, v => { regs with rsi := v }
  | .rsp, v => { regs with rsp := v }
  | .rdi, v => { regs with rdi := v }
  | .orig_rax, v => { regs with orig_rax := v }
  | .eflags, v => { regs with eflags := v }
  | .es, v => { regs with es := v }
  | .cs, v => { regs with cs := v }
  | .ss, v => { regs with ss := v }
  | .fs_base, v => { regs with fs_base := v }
  | .fs, v => { regs with fs := v }
  | .gs_base, v => { regs with gs_base := v }
  | .gs, v => { regs with gs := v }
  | .ds, v => { regs with ds := v }

/-- Modelled from the spec: `src/breakpoint.rs` is not among the provided
sources.  Spec §3: "Fields: tracee pid, absolute address, enabled flag,
saved byte (the original instruction byte that was overwritten by 0xCC).
Lifecycle: created disabled". -/
structure Breakpoint where
  pid : Nat
  addr : Addr
  enabled : Bool
  savedByte : Option Byte
  deriving DecidableEq, Repr

namespace Breakpoint

/-- Modelled from the spec: `Breakpoint::new` — "created disabled". -/
def new (pid : Nat) (addr : Addr) : Breakpoint :=
  { pid := pid, addr := addr, enabled := false, savedByte := none }

/-- `Breakpoint::is_enabled` accessor. -/
def is_enabled (bp : Breakpoint) : Bool := bp.enabled

/-- Modelled from the spec (§4.3): "`enable`: fails with
`BreakpointIsAlreadyEnabled` if already on; otherwise reads the containing
word, stores its least-significant byte in `saved_byte`, substitutes
`0xCC`, writes the word back."  At byte granularity the word round-trip
changes exactly the byte at `bp.addr`. -/
def enable (bp : Breakpoint) (mem : Memory) :
    Except DebuggerError (Breakpoint × Memory) :=
  if bp.enabled then
    .error .BreakpointIsAlreadyEnabled
  else
    .ok ({ bp with enabled := true, savedByte := some (mem bp.addr) },
         Function.update mem bp.addr 0xCC)

/-- Modelled from the spec (§4.3): "`disable`: fails with
`BreakpointIsAlreadyDisabled` otherwise; reads the word, replaces the
least-significant byte with `saved_byte`, writes it back." -/
def disable (bp : Breakpoint) (mem : Memory) :
    Except DebuggerError (Breakpoint × Memory) :=
  if bp.enabled then
    .ok ({ bp with enabled := false },
         Function.update mem bp.addr (bp.savedByte.getD 0))
  else
    .error .BreakpointIsAlreadyDisabled

/-- Modelled from the spec (§3): "On drop, an enabled breakpoint is
disabled."  Dropping never surfaces an error, so only the memory effect
remains. -/
def dropEffect (bp : Breakpoint) (mem : Memory) : Memory :=
  if bp.enabled then Function.update mem bp.addr (bp.savedByte.getD 0)
  else mem

end Breakpoint

/-- The tracee process as observable through ptrace: its register bank and
its memory.  In the source this state lives in the child process; ptrace
calls made by the debugger read and write it. -/
structure Tracee where
  regs : UserRegs
  mem : Memory

/-- `Debuggee` (src/debugger.rs:29-33): tracee pid, breakpoint map,
debug info.  The `HashMap<Addr, Breakpoint>` is modelled as an association
list with distinct keys; `procMap` models what `proc_maps` reports for the
pid when `get_process_map` is called (the list of region start addresses,
which is all `get_base_addr` consumes). -/
structure Debuggee where
  pid : Nat
  breakpoints : List (Addr × Breakpoint)
  procMap : List Addr
  deriving Repr

/-- `Debugger` (src/debugger.rs:23-27), minus the UI handle (not consulted
by any operation the claims mention) with the executable path kept
abstract as validity flags consumed by `launch_debuggee`. -/
structure Debugger where
  debuggee : Option Debuggee

/-- A debugger session: the debugger's own state plus the tracee state it
manipulates through ptrace. -/
structure Session where
  dbg : Debugger
  tracee : Tracee

/-- Ptrace-level actions, recorded in order of issue so that ordering
claims are equalities of traces.  `enableBp`/`disableBp` abbreviate the
peek/poke pair a breakpoint toggle performs at its address. -/
inductive Event where
  | getregs
  | setregs
  | disableBp (a : Addr)
  | enableBp (a : Addr)
  | singleStep
  | waitpid
  | ptraceCont
  deriving DecidableEq, Repr

/-- HashMap lookup on the association list model. -/
def bpLookup (l : List (Addr × Breakpoint)) (a : Addr) : Option Breakpoint :=
  (l.find? (fun p => p.1 == a)).map (·.2)

/-- `HashMap::insert`: replaces the entry at the key, returning the old
value if any (the caller in `set_bp` drops that old value). -/
def bpInsert (l : List (Addr × Breakpoint)) (a : Addr) (bp : Breakpoint) :
    List (Addr × Breakpoint) :=
  if (l.find? (fun p => p.1 == a)).isSome then
    l.map (fun p => if p.1 == a then (a, bp) else p)
  else
    l ++ [(a, bp)]

/-- `HashMap::remove`. -/
def bpRemove (l : List (Addr × Breakpoint)) (a : Addr) :
    List (Addr × Breakpoint) :=
  l.filter (fun p => p.1 != a)

/-- In-place mutation through `get_mut` at a key. -/
def bpModify (l : List (Addr × Breakpoint)) (a : Addr)
    (f : Breakpoint → Breakpoint) : List (Addr × Breakpoint) :=
  l.map (fun p => if p.1 == a then (p.1, f p.2) else p)

/-- One text fragment of a disassembled line.  In the source this is
`(String, FormatterTextKind)`; the kind tag plays no role in any claim, so
only the text is kept. -/
abbrev TextContent := String

/-- `Disassembly` (src/disassemble.rs:16-18): a list of disassembled lines,
each an address with its text fragments. -/
structure Disassembly where
  vec : List (Addr × List TextContent)
  deriving DecidableEq, Repr

namespace Disassembly

/-- `Disassembly::empty` (src/disassemble.rs:33-35). -/
def empty : Disassembly := ⟨[]⟩

/-- `Disassembly::has_entry_for` (src/disassemble.rs:80-82). -/
def has_entry_for (d : Disassembly) (addr : Addr) : Bool :=
  d.vec.any (fun p => p.1 == addr)

/-- `Disassembly::write_to_line` (src/disassemble.rs:84-89): panics
(`none`) when a line for `addr` already exists, otherwise appends. -/
def write_to_line (d : Disassembly) (addr : Addr) (content : List TextContent) :
    Option Disassembly :=
  if d.has_entry_for addr then none
  else some ⟨d.vec ++ [(addr, content)]⟩

/-- `Disassembly::disassemble` (src/disassemble.rs:37-70): the decoder
loop.  The external iced-x86 decoder is abstracted into its output, the
list of `(instruction.ip(), formatted text)` pairs in decode order; each
pair is appended through `write_to_line`. -/
def disassemble (instructions : List (Addr × List TextContent)) :
    Option Disassembly :=
  instructions.foldlM (fun dis p => dis.write_to_line p.1 p.2) Disassembly.empty

end Disassembly

/-- A function symbol as constructed by `Debuggee::get_function_by_addr`
(src/debugger.rs:116-121): `OwnedSymbol::new(&name,
Addr::from_relative(base, la), Addr::from_relative(base, ha),
SymbolKind::Function)`, where `from_relative(base, off) = base + off`.
Only the fields that call site populates are modelled. -/
structure FunctionSymbol where
  name : String
  low_addr : Addr
  high_addr : Addr
  deriving DecidableEq, Repr

/-- `Feedback` (src/feedback.rs): variants reachable from the modelled
operations. -/
inductive Feedback where
  | Text (s : String)
  | Word (w : Nat)
  | Registers (regs : UserRegs)
  | Error (e : DebuggerError)
  | Ok
  | Disassembly (d : Disassembly)
  | Symbols (syms : List FunctionSymbol)
  deriving DecidableEq, Repr

/-- `Feedback::from(Result<Feedback, DebuggerError>)`
(src/feedback.rs:122-129). -/
def feedbackOfResult : Except DebuggerError Feedback → Feedback
  | .ok f => f
  | .error e => .Error e

/-- `mem_read_word`: the 8-byte little-endian word of tracee memory at
`a` (PEEKDATA). -/
def wordAt (mem : Memory) (a : Addr) : Nat :=
  (List.range 8).foldl (fun acc i => acc + mem (a + i) * 256 ^ i) 0

/-- `mem_write_word`: POKEDATA, overwriting the 8 bytes at `a` with the
little-endian bytes of `w`. -/
def memWriteWord (mem : Memory) (a : Addr) (w : Nat) : Memory :=
  fun x => if a ≤ x ∧ x < a + 8 then w / 256 ^ (x - a) % 256 else mem x

/-- `Debugger::err_if_no_debuggee` (src/debugger.rs:265-273). -/
def err_if_no_debuggee (dbg : Debugger) : Except DebuggerError Unit :=
  if dbg.debuggee.isNone then .error .NoDebugee else .ok ()

/-- `Debuggee::get_process_map` (src/debugger.rs:42-44): queries the
kernel's per-pid map; the model returns the recorded `procMap`. -/
def get_process_map (d : Debuggee) : Except DebuggerError (List Addr) :=
  .ok d.procMap

/-- `Debuggee::get_base_addr` (src/debugger.rs:46-48):
`self.get_process_map()?[0].start()`.  The `[0]` index panics (`none`)
when the process map is empty; otherwise the first region's start. -/
def get_base_addr (d : Debuggee) : Option (Except DebuggerError Addr) :=
  match get_process_map d with
  | .error e => some (.error e)
  | .ok pm => pm[0]?.map fun a => .ok a

/-- `Debugger::get_reg` (src/debugger.rs:307-343): guard, one
`ptrace::getregs` snapshot, then field selection. -/
def getRegOp (s : Session) (r : Register) :
    Except DebuggerError (Nat × List Event) :=
  match s.dbg.debuggee with
  | none => .error .NoDebugee
  | some _ => .ok (regValue s.tracee.regs r, [.getregs])

/-- `Debugger::set_reg` (src/debugger.rs:345-383): guard, one
`ptrace::getregs` snapshot, one field updated, one `ptrace::setregs`
write-back of the whole bank. -/
def setRegOp (s : Session) (r : Register) (v : Nat) :
    Except DebuggerError (Session × List Event × Feedback) :=
  match s.dbg.debuggee with
  | none => .error .NoDebugee
  | some _ =>
    .ok ({ s with tracee := { s.tracee with regs := regUpdate s.tracee.regs r v } },
         [.getregs, .setregs], .Ok)

/-- `Debugger::dump_regs` (src/debugger.rs:258-263). -/
def dumpRegsOp (s : Session) : Except DebuggerError Feedback :=
  match s.dbg.debuggee with
  | none => .error .NoDebugee
  | some _ => .ok (.Registers s.tracee.regs)

/-- `Debugger::read_mem` (src/debugger.rs:385-392). -/
def readMemOp (s : Session) (addr : Addr) : Except DebuggerError Feedback :=
  match s.dbg.debuggee with
  | none => .error .NoDebugee
  | some _ => .ok (.Word (wordAt s.tracee.mem addr))

/-- `Debugger::write_mem` (src/debugger.rs:394-401). -/
def writeMemOp (s : Session) (addr : Addr) (value : Nat) :
    Except DebuggerError (Session × Feedback) :=
  match s.dbg.debuggee with
  | none => .error .NoDebugee
  | some _ =>
    .ok ({ s with tracee := { s.tracee with mem := memWriteWord s.tracee.mem addr value } },
         .Ok)

/-- `Debugger::single_step` (src/debugger.rs:403-411): guard, then
`ptrace::step`.  `machine` is the tracee's own one-instruction effect,
about which the engine assumes nothing. -/
def singleStepOp (machine : Tracee → Tracee) (s : Session) :
    Except DebuggerError (Session × List Event × Feedback) :=
  match s.dbg.debuggee with
  | none => .error .NoDebugee
  | some _ => .ok ({ s with tracee := machine s.tracee }, [.singleStep], .Ok)

/-- `Debugger::set_bp` (src/debugger.rs:282-291): guard, a fresh
`Breakpoint::new`, `enable`, then `HashMap::insert`; the value the insert
displaces (if any) is dropped at the end of the statement, which by the
breakpoint drop behaviour disables it. -/
def setBpOp (s : Session) (addr : Addr) :
    Except DebuggerError (Session × Feedback) :=
  match s.dbg.debuggee with
  | none => .error .NoDebugee
  | some d =>
    let bp := Breakpoint.new d.pid addr
    match bp.enable s.tracee.mem with
    | .error e => .error e
    | .ok (bp1, mem1) =>
      let old := bpLookup d.breakpoints addr
      let bps := bpInsert d.breakpoints addr bp1
      let mem2 := match old with
        | none => mem1
        | some ob => ob.dropEffect mem1
      .ok ({ dbg := { debuggee := some { d with breakpoints := bps } },
             tracee := { s.tracee with mem := mem2 } }, .Ok)

/-- `Debugger::del_bp` (src/debugger.rs:293-305): guard; when a breakpoint
is registered at `addr` it is removed from the map (and disabled on
dropping); otherwise only a warning is logged.  Returns `Ok` either way. -/
def delBpOp (s : Session) (addr : Addr) :
    Except DebuggerError (Session × Feedback) :=
  match s.dbg.debuggee with
  | none => .error .NoDebugee
  | some d =>
    match bpLookup d.breakpoints addr with
    | some bp =>
      .ok ({ dbg := { debuggee := some { d with breakpoints := bpRemove d.breakpoints addr } },
             tracee := { s.tracee with mem := bp.dropEffect s.tracee.mem } }, .Ok)
    | none => .ok (s, .Ok)

/-- `Debugger::disassemble_at` (src/debugger.rs:456-463) together with
`Debuggee::disassemble` (src/debugger.rs:50-55): read `len` bytes of
tracee memory, decode them (`decode` abstracts the external iced-x86
decoder: raw bytes and first address to instruction lines), and build the
`Disassembly`. -/
def disassembleAtOp (decode : List Byte → Addr → List (Addr × List TextContent))
    (s : Session) (addr : Addr) (len : Nat) :
    Option (Except DebuggerError Feedback) :=
  match s.dbg.debuggee with
  | none => some (.error .NoDebugee)
  | some _ =>
    let raw := (List.range len).map fun i => s.tracee.mem (addr + i)
    match Disassembly.disassemble (decode raw addr) with
    | none => none
    | some dis => some (.ok (.Disassembly dis))

/-- `Debugger::get_symbol_by_name` (src/debugger.rs:465-471): guard, then
`Debuggee::get_symbol_by_name`, whose body is `todo!()`
(src/debugger.rs:61-63) — a panic (`none`) whenever it is reached. -/
def getSymbolByNameOp (s : Session) (_name : String) :
    Option (Except DebuggerError Feedback) :=
  match s.dbg.debuggee with
  | none => some (.error .NoDebugee)
  | some _ => none

/-- `Debugger::wait` (src/debugger.rs:188-198): guard, then `waitpid` on
the debuggee's pid.  The tracee's state change happened at the resume that
preceded the wait, so here only the guard and the event remain. -/
def waitOp (s : Session) : Except DebuggerError (List Event) :=
  match s.dbg.debuggee with
  | none => .error .NoDebugee
  | some _ => .ok [.waitpid]

/-- `Debugger::step_over_bp` (src/debugger.rs:413-454).  Guard; `probe :=
get_reg(rip) - 1`; if an enabled breakpoint is registered at `probe`:
rewind `rip` to `probe` via `set_reg`, disable the breakpoint, single-step
(panicking — `none` — if that returns a non-`Ok` feedback, line 441),
wait, re-enable the breakpoint.  The two `get_mut(..).unwrap()` calls are
panics (`none`) when the key is absent.  Returns the final session and
the ptrace event trace. -/
def stepOverBp (machine : Tracee → Tracee) (s : Session) :
    Option (Except DebuggerError (Session × List Event)) :=
  match s.dbg.debuggee with
  | none => some (.error .NoDebugee)
  | some d =>
    match getRegOp s .rip with
    | .error e => some (.error e)
    | .ok (ripVal, ev1) =>
      let probe := ripVal - 1
      if (bpLookup d.breakpoints probe).elim false Breakpoint.is_enabled then
        match setRegOp s .rip probe with
        | .error e => some (.error e)
        | .ok (s1, ev2, _) =>
          match bpLookup d.breakpoints probe with
          | none => none
          | some bp =>
            match bp.disable s1.tracee.mem with
            | .error e => some (.error e)
            | .ok (bp1, mem1) =>
              let d1 : Debuggee :=
                { d with breakpoints := bpModify d.breakpoints probe fun _ => bp1 }
              let s2 : Session :=
                { dbg := { debuggee := some d1 },
                  tracee := { s1.tracee with mem := mem1 } }
              match singleStepOp machine s2 with
              | .error e => some (.error e)
              | .ok (s3, ev3, fb) =>
                match fb with
                | .Ok =>
                  match waitOp s3 with
                  | .error e => some (.error e)
                  | .ok ev4 =>
                    match s3.dbg.debuggee with
                    | none => none
                    | some d3 =>
                      match bpLookup d3.breakpoints probe with
                      | none => none
                      | some bp2 =>
                        match bp2.enable s3.tracee.mem with
                        | .error e => some (.error e)
                        | .ok (bp3, mem3) =>
                          let d4 : Debuggee :=
                            { d3 with breakpoints :=
                                bpModify d3.breakpoints probe fun _ => bp3 }
                          some (.ok
                            ({ dbg := { debuggee := some d4 },
                               tracee := { s3.tracee with mem := mem3 } },
                             ev1 ++ ev2 ++ [.disableBp probe] ++ ev3 ++ ev4
                               ++ [.enableBp probe]))
                | _ => none
      else
        some (.ok (s, ev1))

/-- `Debugger::cont` (src/debugger.rs:249-256): guard, `step_over_bp`,
`ptrace::cont`, then `wait` until the next trace-stop.  `machineStep` is
the tracee's effect of one single-stepped instruction, `machineCont` its
effect when continued until the next stop. -/
def contOp (machineStep machineCont : Tracee → Tracee) (s : Session) :
    Option (Except DebuggerError (Session × List Event × Feedback)) :=
  match s.dbg.debuggee with
  | none => some (.error .NoDebugee)
  | some _ =>
    match stepOverBp machineStep s with
    | none => none
    | some (.error e) => some (.error e)
    | some (.ok (s1, ev1)) =>
      match s1.dbg.debuggee with
      | none => none
      | some _ =>
        let s2 : Session := { s1 with tracee := machineCont s1.tracee }
        match waitOp s2 with
        | .error e => some (.error e)
        | .ok ev2 =>
          some (.ok (s2, ev1 ++ [.ptraceCont] ++ ev2, .Ok))

/-- Outcome of `nix::unistd::fork` as seen by the parent: the child pid,
or failure.  (The child branch replaces its image via `execv` and never
returns into the debugger's state machine, so it has no parent-visible
outcome.) -/
inductive ForkResult where
  | parent (pid : Nat)
  | failure
  deriving DecidableEq, Repr

/-- `Debugger::launch_debuggee` (src/debugger.rs:140-186).  Validates
that the executable path exists and is a file, builds the debug info,
forks, and in the parent unconditionally installs a fresh `Debuggee` with
an empty breakpoint map — the existing `self.debuggee`, if any, is never
examined.  `childMap` is the process map the kernel will report for the
new child. -/
def launch_debuggee (_dbg : Debugger) (pathExists pathIsFile : Bool)
    (fork : ForkResult) (childMap : List Addr) : Except DebuggerError Debugger :=
  if !pathExists then .error .ExecutableDoesNotExist
  else if !pathIsFile then .error .ExecutableIsNotAFile
  else
    match fork with
    | .failure => .error .Os
    | .parent pid =>
      .ok { debuggee := some { pid := pid, breakpoints := [], procMap := childMap } }

/-- The typed values `to_value` (src/dwarf_parse.rs:157-164) can build,
`gimli::Value` restricted to the variants that function mentions. -/
inductive GimliValue where
  | U8 (v : Nat)
  | U16 (v : Nat)
  | U32 (v : Nat)
  | U64 (v : Nat)
  deriving DecidableEq, Repr

/-- `to_value` (src/dwarf_parse.rs:157-164): size 1 is `U8(buff[0])`,
size 2 is `U16(u16::from_be_bytes([buff[0], buff[1]]))`, size 4 is
`U32(u32::from_be_bytes([buff[0], .., buff[3]]))`, and every other size
hits `unimplemented!` — a panic, `none` (as does an out-of-range index
into `buff`). -/
def to_value (size : Nat) (buff : List Byte) : Option GimliValue :=
  match size with
  | 1 => buff[0]?.map GimliValue.U8
  | 2 =>
    match buff[0]?, buff[1]? with
    | some b0, some b1 => some (.U16 (b0 * 256 + b1))
    | _, _ => none
  | 4 =>
    match buff[0]?, buff[1]?, buff[2]?, buff[3]? with
    | some b0, some b1, some b2, some b3 =>
      some (.U32 (((b0 * 256 + b1) * 256 + b2) * 256 + b3))
    | _, _, _, _ => none
  | _ => none

/-- The `RequiresMemory { address, size }` arm of `eval_expression`
(src/dwarf_parse.rs:133-145): read `size` bytes of tracee memory at
`address` into `buff` (the `assert_eq!` on the byte count holds by
construction here) and convert with `to_value`.  The value handed to
`resume_with_memory`. -/
def requiresMemoryValue (mem : Memory) (address : Addr) (size : Nat) :
    Option GimliValue :=
  let buff := (List.range size).map fun i => mem (address + i)
  to_value size buff

/-- The specification's version of the memory-value conversion, stated
from the spec's words for comparison with `to_value` (§4.6: "Supported
sizes: 1 (U8), 2 (U16), 4 (U32), 8 (U64). Byte order: little-endian.
Unsupported sizes fail."). -/
def to_value_of_spec (size : Nat) (buff : List Byte) : Option GimliValue :=
  match size, buff with
  | 1, [b0] => some (.U8 b0)
  | 2, [b0, b1] => some (.U16 (b0 + b1 * 256))
  | 4, [b0, b1, b2, b3] =>
    some (.U32 (b0 + b1 * 256 + b2 * 256 ^ 2 + b3 * 256 ^ 3))
  | 8, [b0, b1, b2, b3, b4, b5, b6, b7] =>
    some (.U64 (b0 + b1 * 256 + b2 * 256 ^ 2 + b3 * 256 ^ 3 + b4 * 256 ^ 4
      + b5 * 256 ^ 5 + b6 * 256 ^ 6 + b7 * 256 ^ 7))
  | _, _ => none

/-- One `DW_TAG_subprogram` DIE as `Debuggee::get_function_by_addr`
(src/debugger.rs:65-128) consumes it: whether it has children, its
resolved `DW_AT_low_pc` address (`attr_address`), its `DW_AT_high_pc`
unsigned offset (`udata_value`), and its resolved `DW_AT_name` string.
The gimli unit traversal is abstracted into the DFS-ordered list of these
entries. -/
structure DwarfEntry where
  hasChildren : Bool
  low : Option Nat
  highOff : Option Nat
  name : Option String
  deriving DecidableEq, Repr

/-- The candidate filter of src/debugger.rs:82-88: the entry must have
children and a present `high_pc`, `low_pc` and `name` attribute,
otherwise it is skipped. -/
def validEntry (e : DwarfEntry) : Bool :=
  e.hasChildren && e.low.isSome && e.highOff.isSome && e.name.isSome

/-- The entry loop of `Debuggee::get_function_by_addr`
(src/debugger.rs:76-125), carrying the `fun` accumulator.  For each valid
entry: `la` is the resolved low address, `ha = la + high offset`,
`get_base_addr` is queried (panicking — `none` — on an empty process
map), `addr` is converted to relative (`Addr::relative`, i.e. `addr -
base`), and when `la <= rel && ha >= rel` the accumulator is replaced by
the symbol built from this entry. -/
def getFunByAddrGo (d : Debuggee) (addr : Addr) :
    List DwarfEntry → Option FunctionSymbol →
    Option (Except DebuggerError (Option FunctionSymbol))
  | [], acc => some (.ok acc)
  | e :: rest, acc =>
    if validEntry e then
      match get_base_addr d with
      | none => none
      | some (.error err) => some (.error err)
      | some (.ok base) =>
        let la := e.low.getD 0
        let ha := la + e.highOff.getD 0
        let rel := addr - base
        if la ≤ rel ∧ ha ≥ rel then
          getFunByAddrGo d addr rest (some ⟨e.name.getD "", base + la, base + ha⟩)
        else
          getFunByAddrGo d addr rest acc
    else
      getFunByAddrGo d addr rest acc

/-- `Debuggee::get_function_by_addr` (src/debugger.rs:65-128): run the
entry loop with an empty accumulator over the DFS entry list. -/
def get_function_by_addr (d : Debuggee) (entries : List DwarfEntry)
    (addr : Addr) : Option (Except DebuggerError (Option FunctionSymbol)) :=
  getFunByAddrGo d addr entries none

/-- The startup of `Debugger::run_debugger` (src/debugger.rs:209-218):
wait for the initial stop (guard), then look up the function at
`Addr::from_relative(get_base_addr(), 0x1140)` — both the
`from_relative` argument and the lookup itself consult `get_base_addr`,
so its panic (`none`) propagates. -/
def runDebuggerInit (s : Session) (entries : List DwarfEntry) :
    Option (Except DebuggerError (Option FunctionSymbol)) :=
  match s.dbg.debuggee with
  | none => some (.error .NoDebugee)
  | some d =>
    match get_base_addr d with
    | none => none
    | some (.error e) => some (.error e)
    | some (.ok base) => get_function_by_addr d entries (base + 0x1140)

/-- The `Status` commands dispatched by the `run_debugger` loop
(src/debugger.rs:229-240). -/
inductive Status where
  | Continue
  | SetBreakpoint (addr : Addr)
  | DelBreakpoint (addr : Addr)
  | DumpRegisters
  | SetRegister (r : Register) (v : Nat)
  | WriteMem (a : Addr) (v : Nat)
  | ReadMem (a : Addr)
  | DisassembleAt (a : Addr) (len : Nat)
  | GetSymbolsByName (s : String)

/-- One iteration of the `run_debugger` dispatch loop
(src/debugger.rs:221-244): run the operation for the command and convert
its `Result` into a `Feedback` via `Feedback::from`; on an error the
session state is left as it was (`self` is only mutated by a successful
operation).  `none` is a panic escaping an operation. -/
def dispatchStep (decode : List Byte → Addr → List (Addr × List TextContent))
    (machineStep machineCont : Tracee → Tracee) (s : Session) :
    Status → Option (Session × Feedback)
  | .Continue =>
    (contOp machineStep machineCont s).map fun r =>
      match r with
      | .error e => (s, .Error e)
      | .ok (s', _, f) => (s', f)
  | .SetBreakpoint a =>
    some (match setBpOp s a with
      | .error e => (s, .Error e)
      | .ok (s', f) => (s', f))
  | .DelBreakpoint a =>
    some (match delBpOp s a with
      | .error e => (s, .Error e)
      | .ok (s', f) => (s', f))
  | .DumpRegisters =>
    some (match dumpRegsOp s with
      | .error e => (s, .Error e)
      | .ok f => (s, f))
  | .SetRegister r v =>
    some (match setRegOp s r v with
      | .error e => (s, .Error e)
      | .ok (s', _, f) => (s', f))
  | .WriteMem a v =>
    some (match writeMemOp s a v with
      | .error e => (s, .Error e)
      | .ok (s', f) => (s', f))
  | .ReadMem a =>
    some (match readMemOp s a with
      | .error e => (s, .Error e)
      | .ok f => (s, f))
  | .DisassembleAt a len =>
    (disassembleAtOp decode s a len).map fun r =>
      match r with
      | .error e => (s, .Error e)
      | .ok f => (s, f)
  | .GetSymbolsByName n =>
    (getSymbolByNameOp s n).map fun r =>
      match r with
      | .error e => (s, .Error e)
      | .ok f => (s, f)

/-! ## Fixtures for witnesses and counterexamples -/

/-- A zeroed register bank. -/
def regsZero : UserRegs :=
  ⟨0, 0, 0, 0, 0, 0, 0, 0, 0, 0, 0, 0, 0, 0, 0, 0, 0, 0, 0, 0, 0, 0, 0, 0, 0, 0, 0⟩

/-- Memory filled with single-byte NOPs. -/
def memNop : Memory := fun _ => 0x90

/-- A session with a live debuggee (pid 1, no breakpoints, one-region
process map based at 0) over NOP-filled memory. -/
def sesLive : Session :=
  { dbg := { debuggee := some { pid := 1, breakpoints := [], procMap := [0] } },
    tracee := { regs := regsZero, mem := memNop } }

/-- A session with no debuggee. -/
def sesNone : Session :=
  { dbg := { debuggee := none },
    tracee := { regs := regsZero, mem := memNop } }

/-! ## Helper lemmas -/

theorem bpLookup_bpInsert_self (a : Addr) (bp : Breakpoint) :
    ∀ l : List (Addr × Breakpoint), bpLookup (bpInsert l a bp) a = some bp := by
  intro l
  induction l with
  | nil => simp [bpLookup, bpInsert]
  | cons x xs ih =>
    cases hx : (x.1 == a) with
    | true =>
      have hx' : x.1 = a := by simpa using hx
      simp [bpInsert, bpLookup, List.find?_cons, hx, hx']
    | false =>
      have hx' : ¬x.1 = a := by simpa using hx
      cases hs : xs.find? (fun p => p.1 == a) with
      | some y =>
        have hrw : bpInsert (x :: xs) a bp
            = x :: xs.map (fun p => if p.1 == a then (a, bp) else p) := by
          simp [bpInsert, List.find?_cons, hx, hx', hs]
        have hrw2 : bpInsert xs a bp
            = xs.map (fun p => if p.1 == a then (a, bp) else p) := by
          simp [bpInsert, hs]
        rw [hrw2] at ih
        rw [hrw]
        simpa [bpLookup, List.find?_cons, hx] using ih
      | none =>
        have hrw : bpInsert (x :: xs) a bp = x :: (xs ++ [(a, bp)]) := by
          simp [bpInsert, List.find?_cons, hx, hs]
        have hrw2 : bpInsert xs a bp = xs ++ [(a, bp)] := by
          simp [bpInsert, hs]
        rw [hrw2] at ih
        rw [hrw]
        simpa [bpLookup, List.find?_cons, hx] using ih

theorem getFunByAddrGo_base_panic (d : Debuggee) (addr : Addr)
    (hbase : get_base_addr d = none) :
    ∀ (l : List DwarfEntry) (acc : Option FunctionSymbol),
      (∃ e ∈ l, validEntry e = true) → getFunByAddrGo d addr l acc = none := by
  intro l
  induction l with
  | nil => rintro acc ⟨e, he, _⟩; cases he
  | cons x xs ih =>
    rintro acc ⟨e, he, hv⟩
    by_cases hx : validEntry x = true
    · simp [getFunByAddrGo, hx, hbase]
    · rcases List.mem_cons.mp he with rfl | hmem
      · exact absurd hv hx
      · simp only [getFunByAddrGo, hx, if_false]
        exact ih acc ⟨e, hmem, hv⟩

/-- **C9.** Deleting a breakpoint at an address where none is registered
is not an error: `del_bp` returns `Ok` (only logging a warning) and
leaves the session — in particular the breakpoint map — unchanged. -/
theorem del_bp_unregistered_is_ok (s : Session) (d : Debuggee) (addr : Addr)
    (hd : s.dbg.debuggee = some d)
    (habs : bpLookup d.breakpoints addr = none) :
    delBpOp s addr = .ok (s, .Ok) := by
  simp [delBpOp, hd, habs]

/-- Witness for C9 at a concrete session: live debuggee, empty breakpoint
map, address 5. -/
theorem del_bp_unregistered_is_ok_witness :
    delBpOp sesLive 5 = .ok (sesLive, .Ok) :=
  del_bp_unregistered_is_ok sesLive { pid := 1, breakpoints := [], procMap := [0] }
    5 rfl rfl

/-- **C8.** `get_base_addr` is not total: with an empty process map it
panics (`none`, the out-of-bounds `[0]` index) instead of returning an
error `Result`, and the panic is inherited by `get_function_by_addr`
(as soon as any valid subprogram entry is examined) and by the
`run_debugger` startup. -/
theorem get_base_addr_empty_map_panics (s : Session) (d : Debuggee)
    (entries : List DwarfEntry) (addr : Addr) (e : DwarfEntry)
    (hd : s.dbg.debuggee = some d) (hpm : d.procMap = [])
    (he : e ∈ entries) (hv : validEntry e = true) :
    get_base_addr d = none ∧ get_function_by_addr d entries addr = none ∧
      runDebuggerInit s entries = none := by
  have hbase : get_base_addr d = none := by
    simp [get_base_addr, get_process_map, hpm]
  refine ⟨hbase, ?_, ?_⟩
  · exact getFunByAddrGo_base_panic d addr hbase entries none ⟨e, he, hv⟩
  · simp [runDebuggerInit, hd, hbase]

/-- Witness for C8: a debuggee whose kernel process map is empty and a
single well-formed subprogram entry. -/
theorem get_base_addr_empty_map_panics_witness :
    get_base_addr { pid := 1, breakpoints := [], procMap := [] } = none ∧
      get_function_by_addr { pid := 1, breakpoints := [], procMap := [] }
        [{ hasChildren := true, low := some 0, highOff := some 1, name := some "f" }]
        0 = none ∧
      runDebuggerInit
        { dbg := { debuggee := some { pid := 1, breakpoints := [], procMap := [] } },
          tracee := { regs := regsZero, mem := memNop } }
        [{ hasChildren := true, low := some 0, highOff := some 1, name := some "f" }]
        = none :=
  get_base_addr_empty_map_panics _ _ _ 0
    { hasChildren := true, low := some 0, highOff := some 1, name := some "f" }
    rfl rfl (List.mem_singleton.mpr rfl) rfl

theorem write_to_line_preserves_nodup (d : Disassembly) (a : Addr)
    (c : List TextContent) (d' : Disassembly)
    (hnd : (d.vec.map Prod.fst).Nodup)
    (hw : d.write_to_line a c = some d') :
    (d'.vec.map Prod.fst).Nodup := by
  unfold Disassembly.write_to_line at hw
  by_cases hhas : d.has_entry_for a
  · simp [hhas] at hw
  · have hfb : d.has_entry_for a = false := by simpa using hhas
    simp only [hfb, Bool.false_eq_true, if_false, Option.some_inj] at hw
    subst hw
    have hnotin : a ∉ d.vec.map Prod.fst := by
      intro hmem
      rcases List.mem_map.mp hmem with ⟨p, hp, hpa⟩
      exact hhas (List.any_eq_true.mpr ⟨p, hp, by simpa using hpa⟩)
    rw [List.map_append]
    refine List.nodup_append.mpr ⟨hnd, ?_, ?_⟩
    · simp
    · intro x hx hx2
      simp only [List.map_cons, List.map_nil, List.mem_singleton] at hx2
      exact hnotin (hx2 ▸ hx)

theorem disassemble_go_nodup (instrs : List (Addr × List TextContent)) :
    ∀ (acc : Disassembly) (dis : Disassembly),
      (acc.vec.map Prod.fst).Nodup →
      instrs.foldlM (fun d p => d.write_to_line p.1 p.2) acc = some dis →
      (dis.vec.map Prod.fst).Nodup := by
  induction instrs with
  | nil =>
    intro acc dis hnd h
    simp only [List.foldlM, Option.pure_def, Option.some_inj] at h
    exact h ▸ hnd
  | cons p rest ih =>
    intro acc dis hnd h
    rw [List.foldlM_cons] at h
    cases hw : acc.write_to_line p.1 p.2 with
    | none =>
      rw [hw] at h
      exact Option.noConfusion h
    | some acc' =>
      rw [hw] at h
      simp only [Option.bind_eq_bind, Option.some_bind] at h
      exact ih acc' dis (write_to_line_preserves_nodup acc p.1 p.2 acc' hnd hw) h

/-- **C10.** `write_to_line` preserves the no-duplicate-address invariant
(panicking — `none` — rather than inserting an address that already has a
line), and every `Disassembly` that `disassemble` succeeds in building
has pairwise distinct addresses. -/
theorem disassembly_addresses_nodup :
    (∀ (d : Disassembly) (a : Addr) (c : List TextContent) (d' : Disassembly),
        (d.vec.map Prod.fst).Nodup → d.write_to_line a c = some d' →
        (d'.vec.map Prod.fst).Nodup) ∧
    (∀ (instrs : List (Addr × List TextContent)) (dis : Disassembly),
        Disassembly.disassemble instrs = some dis →
        (dis.vec.map Prod.fst).Nodup) := by
  refine ⟨write_to_line_preserves_nodup, fun instrs dis h => ?_⟩
  exact disassemble_go_nodup instrs Disassembly.empty dis (by simp [Disassembly.empty]) h

/-- Witness for C10: disassembling two concrete lines at addresses 0 and
1 yields pairwise distinct addresses. -/
theorem disassembly_addresses_nodup_witness :
    ((Disassembly.mk [(0, ["nop"]), (1, ["ret"])]).vec.map Prod.fst).Nodup :=
  disassembly_addresses_nodup.2 [(0, ["nop"]), (1, ["ret"])]
    (Disassembly.mk [(0, ["nop"]), (1, ["ret"])]) rfl

/-- **C2, counterexample.** The claim says the memory values supplied to
the DWARF evaluator are little-endian and that size 8 is supported as
`U64`.  On the code, size 2 over the bytes `[1, 0]` yields
`U16 0x0100` (big-endian, not the little-endian `U16 0x0001`), and size 8
hits `unimplemented!` (a panic, `none`) instead of producing a `U64`. -/
theorem to_value_little_endian_counterexample :
    to_value 2 [1, 0] = some (.U16 256) ∧
      to_value 2 [1, 0] ≠ some (.U16 1) ∧
      to_value 2 [1, 0] ≠ to_value_of_spec 2 [1, 0] ∧
      to_value 8 [0, 0, 0, 0, 0, 0, 0, 0] = none ∧
      to_value_of_spec 8 [0, 0, 0, 0, 0, 0, 0, 0] = some (.U64 0) := by
  refine ⟨rfl, ?_, ?_, rfl, rfl⟩ <;> decide

/-- **C2, amended.** `RequiresMemory{address, size}` reads `size` bytes
from the tracee at `address` and supplies them as a typed value of that
size, interpreting the bytes as BIG-endian: size 1 gives `U8`, size 2
`U16`, size 4 `U32`; every other size — including 8 — panics
(`unimplemented!`). -/
theorem requires_memory_value_spec (mem : Memory) (address : Addr) :
    requiresMemoryValue mem address 1 = some (.U8 (mem address)) ∧
      requiresMemoryValue mem address 2
        = some (.U16 (mem address * 256 + mem (address + 1))) ∧
      requiresMemoryValue mem address 4
        = some (.U32 (((mem address * 256 + mem (address + 1)) * 256
            + mem (address + 2)) * 256 + mem (address + 3))) ∧
      ∀ size : Nat, size ≠ 1 → size ≠ 2 → size ≠ 4 →
        requiresMemoryValue mem address size = none := by
  refine ⟨?_, ?_, ?_, ?_⟩
  · simp [requiresMemoryValue, to_value, List.range_succ]
  · simp [requiresMemoryValue, to_value, List.range_succ]
  · simp [requiresMemoryValue, to_value, List.range_succ]
  · intro size h1 h2 h4
    match size, h1, h2, h4 with
    | 0, _, _, _ => rfl
    | 3, _, _, _ => rfl
    | n + 5, _, _, _ => rfl

/-- Witness for C2 (amended) at a concrete memory and address. -/
theorem requires_memory_value_spec_witness :
    requiresMemoryValue memNop 0 2 = some (.U16 (0x90 * 256 + 0x90)) ∧
      requiresMemoryValue memNop 0 8 = none :=
  ⟨(requires_memory_value_spec memNop 0).2.1,
   (requires_memory_value_spec memNop 0).2.2.2 8 (by decide) (by decide) (by decide)⟩

/-- **C5.** The claim says a launch issued while a tracee already exists
fails with `AlreadyRunning` and leaves the existing debuggee in place.
`launch_debuggee` never examines `self.debuggee`: at the concrete failing
input (a session already debugging pid 7, a valid executable path, a fork
returning child pid 9) it returns `Ok` and replaces the debuggee with the
new child.  The error enum (src/errors.rs:104-105) documents
`AlreadyRunning` as "Tried to run a program while one was already
running", yet no code path raises it, so the missing guard is a slip in
`launch_debuggee`. -/
theorem launch_debuggee_ignores_existing :
    launch_debuggee { debuggee := some { pid := 7, breakpoints := [], procMap := [0] } }
        true true (.parent 9) [0x1000]
      = .ok { debuggee := some { pid := 9, breakpoints := [], procMap := [0x1000] } } ∧
    launch_debuggee { debuggee := some { pid := 7, breakpoints := [], procMap := [0] } }
        true true (.parent 9) [0x1000]
      ≠ .error .AlreadyRunning :=
  ⟨rfl, fun h => Except.noConfusion h⟩

theorem getFunByAddrGo_ok_iff (d : Debuggee) (base : Addr) (addr : Addr)
    (hbase : get_base_addr d = some (.ok base)) :
    ∀ (l : List DwarfEntry) (acc : Option FunctionSymbol),
      ∃ r, getFunByAddrGo d addr l acc = some (.ok r) ∧
        (r.isSome ↔ acc.isSome ∨ ∃ e ∈ l, validEntry e = true ∧
          e.low.getD 0 ≤ addr - base ∧
          addr - base ≤ e.low.getD 0 + e.highOff.getD 0) := by
  intro l
  induction l with
  | nil =>
    intro acc
    exact ⟨acc, rfl, by simp⟩
  | cons x xs ih =>
    intro acc
    by_cases hv : validEntry x = true
    · by_cases hin : x.low.getD 0 ≤ addr - base ∧
          x.low.getD 0 + x.highOff.getD 0 ≥ addr - base
      · obtain ⟨r, hr, hiff⟩ :=
          ih (some ⟨x.name.getD "", base + x.low.getD 0,
                base + (x.low.getD 0 + x.highOff.getD 0)⟩)
        refine ⟨r, ?_, ?_⟩
        · simpa [getFunByAddrGo, hv, hbase, hin] using hr
        · rw [hiff]
          simp only [Option.isSome_some, true_or, true_iff]
          exact Or.inr ⟨x, List.mem_cons_self x xs, hv, hin.1, hin.2⟩
      · obtain ⟨r, hr, hiff⟩ := ih acc
        refine ⟨r, ?_, ?_⟩
        · show getFunByAddrGo d addr (x :: xs) acc = some (.ok r)
          simp only [getFunByAddrGo, hv, if_true, hbase]
          rw [if_neg hin]
          exact hr
        · rw [hiff]
          constructor
          · rintro (h | ⟨e, he, hev, h1, h2⟩)
            · exact Or.inl h
            · exact Or.inr ⟨e, List.mem_cons_of_mem x he, hev, h1, h2⟩
          · rintro (h | ⟨e, he, hev, h1, h2⟩)
            · exact Or.inl h
            · rcases List.mem_cons.mp he with rfl | hmem
              · exact absurd ⟨h1, h2⟩ hin
              · exact Or.inr ⟨e, hmem, hev, h1, h2⟩
    · obtain ⟨r, hr, hiff⟩ := ih acc
      refine ⟨r, ?_, ?_⟩
      · simpa [getFunByAddrGo, hv] using hr
      · rw [hiff]
        constructor
        · rintro (h | ⟨e, he, hev, h1, h2⟩)
          · exact Or.inl h
          · exact Or.inr ⟨e, List.mem_cons_of_mem x he, hev, h1, h2⟩
        · rintro (h | ⟨e, he, hev, h1, h2⟩)
          · exact Or.inl h
          · rcases List.mem_cons.mp he with rfl | hmem
            · exact absurd hev hv
            · exact Or.inr ⟨e, hmem, hev, h1, h2⟩

/-- **C4, counterexample.** The claim says the containment test is the
half-open range `[low, high)`, so an address equal to the function's high
address must not be contained.  On the code (`la <= addr_rel && ha >=
addr_rel`), for a function with relative range low 0, high 16 at module
base 0, querying address 16 — equal to the high address — returns the
function symbol rather than nothing. -/
theorem get_function_by_addr_high_is_contained :
    get_function_by_addr { pid := 1, breakpoints := [], procMap := [0] }
        [{ hasChildren := true, low := some 0, highOff := some 16, name := some "f" }]
        16
      = some (.ok (some { name := "f", low_addr := 0, high_addr := 16 })) ∧
    get_function_by_addr { pid := 1, breakpoints := [], procMap := [0] }
        [{ hasChildren := true, low := some 0, highOff := some 16, name := some "f" }]
        16
      ≠ some (.ok none) := by
  refine ⟨rfl, ?_⟩
  intro h
  rw [show get_function_by_addr { pid := 1, breakpoints := [], procMap := [0] }
      [{ hasChildren := true, low := some 0, highOff := some 16, name := some "f" }]
      16 = some (.ok (some { name := "f", low_addr := 0, high_addr := 16 })) from rfl] at h
  simp at h

/-- **C4, amended.** Function lookup by address returns a function symbol
exactly when the queried address, converted to relative against the
module base, lies in the CLOSED range `[low, high]` of some
well-formed subprogram entry; in particular an address equal to the
function's high address IS contained. -/
theorem get_function_by_addr_closed_range (d : Debuggee) (base : Addr)
    (rest : List Addr) (entries : List DwarfEntry) (addr : Addr)
    (hpm : d.procMap = base :: rest) :
    ∃ r, get_function_by_addr d entries addr = some (.ok r) ∧
      (r.isSome ↔ ∃ e ∈ entries, validEntry e = true ∧
        e.low.getD 0 ≤ addr - base ∧
        addr - base ≤ e.low.getD 0 + e.highOff.getD 0) := by
  have hbase : get_base_addr d = some (.ok base) := by
    simp [get_base_addr, get_process_map, hpm]
  obtain ⟨r, hr, hiff⟩ := getFunByAddrGo_ok_iff d base addr hbase entries none
  exact ⟨r, hr, by simpa using hiff⟩

/-- Witness for C4 (amended): the concrete lookup of the counterexample,
through the amended theorem. -/
theorem get_function_by_addr_closed_range_witness :
    ((get_function_by_addr { pid := 1, breakpoints := [], procMap := [0] }
        [{ hasChildren := true, low := some 0, highOff := some 16, name := some "f" }]
        16).map (Except.map Option.isSome)) = some (.ok true) := by
  obtain ⟨r, hr, hiff⟩ := get_function_by_addr_closed_range
    { pid := 1, breakpoints := [], procMap := [0] } 0 []
    [{ hasChildren := true, low := some 0, highOff := some 16, name := some "f" }]
    16 rfl
  rw [hr]
  have : r.isSome := hiff.mpr
    ⟨_, List.mem_singleton.mpr rfl, by decide, by decide, by decide⟩
  simp [Except.map, this]

/-- A session whose tracee memory holds byte 0x55 everywhere, with a live
debuggee and no breakpoints: the starting point for the double-set
scenario. -/
def sesByte55 : Session :=
  { dbg := { debuggee := some { pid := 1, breakpoints := [], procMap := [0] } },
    tracee := { regs := regsZero, mem := fun _ => 0x55 } }

/-- The session after `set_bp(16); set_bp(16)` from `sesByte55`
(`none` would mean an error along the way). -/
def afterDoubleSetBp : Option Session :=
  match setBpOp sesByte55 16 with
  | .error _ => none
  | .ok (s1, _) =>
    match setBpOp s1 16 with
    | .error _ => none
    | .ok (s2, _) => some s2

/-- **C3, counterexample.** The claim says double-set at an address with
an enabled breakpoint is a no-op: memory still patched with `0xCC`, the
original byte still saved.  On the code at the concrete input
(`sesByte55`, original byte 0x55 at address 16, `set_bp(16)` twice): the
second `set_bp` re-reads the already patched byte, so the surviving
breakpoint's saved byte is `0xCC` (not the original 0x55), and the
replaced breakpoint's drop-disable restores 0x55 to memory, so the tracee
memory at 16 is no longer the `0xCC` patch. -/
theorem set_bp_double_set_counterexample :
    (afterDoubleSetBp.map fun s2 => s2.tracee.mem 16) = some 0x55 ∧
    (afterDoubleSetBp.map fun s2 => s2.tracee.mem 16) ≠ some 0xCC ∧
    (afterDoubleSetBp.map fun s2 =>
        s2.dbg.debuggee.map fun d =>
          (bpLookup d.breakpoints 16).map fun bp => (bp.enabled, bp.savedByte))
      = some (some (some (true, some 0xCC))) := by
  refine ⟨rfl, ?_, rfl⟩
  intro h
  rw [show (afterDoubleSetBp.map fun s2 => s2.tracee.mem 16) = some 0x55 from rfl] at h
  simp at h

/-- **C3, amended.** Issuing `SetBreakpoint(A)` a second time while an
enabled breakpoint is registered at `A` does return `Ok`, and afterwards
the map holds an enabled breakpoint at `A` — but the operation is not a
no-op on the tracee: the new breakpoint's saved byte is whatever byte was
in memory at `A` (the `0xCC` patch), and the replaced breakpoint disables
itself when dropped, restoring its own saved byte to memory at `A`. -/
theorem set_bp_double_set_amended (s : Session) (d : Debuggee) (addr : Addr)
    (oldBp : Breakpoint)
    (hd : s.dbg.debuggee = some d)
    (hl : bpLookup d.breakpoints addr = some oldBp)
    (he : oldBp.enabled = true)
    (ha : oldBp.addr = addr) :
    ∃ d', setBpOp s addr
        = .ok ({ dbg := { debuggee := some d' },
                 tracee := { s.tracee with
                   mem := Function.update s.tracee.mem addr (oldBp.savedByte.getD 0) } },
               .Ok) ∧
      d'.breakpoints = bpInsert d.breakpoints addr
        { pid := d.pid, addr := addr, enabled := true,
          savedByte := some (s.tracee.mem addr) } ∧
      bpLookup d'.breakpoints addr
        = some { pid := d.pid, addr := addr, enabled := true,
                 savedByte := some (s.tracee.mem addr) } ∧
      Function.update s.tracee.mem addr (oldBp.savedByte.getD 0) addr
        = oldBp.savedByte.getD 0 := by
  refine ⟨{ d with breakpoints := bpInsert d.breakpoints addr ⟨d.pid, addr, true, some (s.tracee.mem addr)⟩ }, ?_, rfl, ?_, ?_⟩
  · simp only [setBpOp, hd, Breakpoint.new, Breakpoint.enable, Breakpoint.dropEffect,
      hl, he, ha, Bool.false_eq_true, if_false, if_true]
    rw [Function.update_idem]
  · exact bpLookup_bpInsert_self addr _ d.breakpoints
  · exact Function.update_same addr _ s.tracee.mem

/-- The breakpoint installed at 16 by the first `set_bp` from
`sesByte55`: enabled, original byte 0x55 saved. -/
def bpAt16 : Breakpoint :=
  { pid := 1, addr := 16, enabled := true, savedByte := some 0x55 }

/-- The debuggee after that first `set_bp`. -/
def dAfterFirstSet : Debuggee :=
  { pid := 1, breakpoints := [(16, bpAt16)], procMap := [0] }

/-- The session after that first `set_bp`: memory at 16 patched to 0xCC. -/
def sesAfterFirstSet : Session :=
  { dbg := { debuggee := some dAfterFirstSet },
    tracee := { regs := regsZero, mem := Function.update (fun _ => 0x55) 16 0xCC } }

/-- Witness for C3 (amended): the first `set_bp` from `sesByte55`
installs an enabled breakpoint at 16 saving byte 0x55; applying the
amended theorem to the resulting session shows what the second `set_bp`
does. -/
theorem set_bp_double_set_amended_witness :
    (afterDoubleSetBp.map fun s2 =>
        s2.dbg.debuggee.map fun d =>
          (bpLookup d.breakpoints 16).map fun bp => bp.savedByte)
      = some (some (some (some 0xCC))) := by
  obtain ⟨d', h1, _, h3, _⟩ := set_bp_double_set_amended
    sesAfterFirstSet dAfterFirstSet 16 bpAt16 rfl rfl rfl rfl
  have hfirst : setBpOp sesByte55 16 = .ok (sesAfterFirstSet, .Ok) := by
    simp only [setBpOp, sesByte55, sesAfterFirstSet, dAfterFirstSet, bpAt16,
      Breakpoint.new, Breakpoint.enable, bpLookup, bpInsert,
      Bool.false_eq_true, if_false]
    rfl
  unfold afterDoubleSetBp
  rw [hfirst]
  simp only [h1]
  simp [h3, sesAfterFirstSet, bpAt16]

/-- **C7.** Every command operation that requires a tracee — continue,
set breakpoint, delete breakpoint, dump registers, set register, read
memory, write memory, single-step, disassemble, symbol lookup — returns
the `NoDebugee` error when no debuggee is active, and the dispatch loop
leaves the session state unchanged, handing back `Feedback::Error`. -/
theorem no_debuggee_all_ops_error (s : Session)
    (decode : List Byte → Addr → List (Addr × List TextContent))
    (ms mc : Tracee → Tracee) (a : Addr) (v : Nat) (len : Nat) (r : Register)
    (name : String)
    (hnone : s.dbg.debuggee = none) :
    contOp ms mc s = some (.error .NoDebugee) ∧
      setBpOp s a = .error .NoDebugee ∧
      delBpOp s a = .error .NoDebugee ∧
      dumpRegsOp s = .error .NoDebugee ∧
      setRegOp s r v = .error .NoDebugee ∧
      readMemOp s a = .error .NoDebugee ∧
      writeMemOp s a v = .error .NoDebugee ∧
      singleStepOp ms s = .error .NoDebugee ∧
      disassembleAtOp decode s a len = some (.error .NoDebugee) ∧
      getSymbolByNameOp s name = some (.error .NoDebugee) ∧
      ∀ cmd : Status, dispatchStep decode ms mc s cmd
        = some (s, .Error .NoDebugee) := by
  refine ⟨?_, ?_, ?_, ?_, ?_, ?_, ?_, ?_, ?_, ?_, ?_⟩
  · simp [contOp, hnone]
  · simp [setBpOp, hnone]
  · simp [delBpOp, hnone]
  · simp [dumpRegsOp, hnone]
  · simp [setRegOp, hnone]
  · simp [readMemOp, hnone]
  · simp [writeMemOp, hnone]
  · simp [singleStepOp, hnone]
  · simp [disassembleAtOp, hnone]
  · simp [getSymbolByNameOp, hnone]
  · intro cmd
    cases cmd <;>
      simp [dispatchStep, contOp, setBpOp, delBpOp, dumpRegsOp, setRegOp,
        writeMemOp, readMemOp, disassembleAtOp, getSymbolByNameOp, hnone]

/-- Witness for C7 at the concrete no-debuggee session, identity machine
functions and a trivial decoder. -/
theorem no_debuggee_all_ops_error_witness :
    contOp id id sesNone = some (.error .NoDebugee) ∧
      dispatchStep (fun _ _ => []) id id sesNone .DumpRegisters
        = some (sesNone, .Error .NoDebugee) :=
  ⟨(no_debuggee_all_ops_error sesNone (fun _ _ => []) id id 0 0 0 .rax "x" rfl).1,
   (no_debuggee_all_ops_error sesNone (fun _ _ => []) id id 0 0 0 .rax "x"
      rfl).2.2.2.2.2.2.2.2.2.2 .DumpRegisters⟩

theorem regValue_regUpdate_same (regs : UserRegs) (r : Register) (v : Nat) :
    regValue (regUpdate regs r v) r = v := by
  cases r <;> rfl

theorem regValue_regUpdate_other (regs : UserRegs) (r r' : Register) (v : Nat)
    (h : r' ≠ r) : regValue (regUpdate regs r v) r' = regValue regs r' := by
  cases r <;> cases r' <;> first | rfl | exact absurd rfl h

/-- **C6.** For every supported register R and every value V representable
in 64 bits, `set_reg(R, V)` followed by `get_reg(R)` yields V, every
register other than R reads unchanged, and the update is made on one
`getregs` snapshot written back via a single `setregs` call (the
operation's ptrace trace is exactly `[getregs, setregs]`, and the
resulting bank is the snapshot with the single field replaced). -/
theorem set_reg_get_reg_roundtrip (s : Session) (d : Debuggee) (r : Register)
    (v : Nat) (hd : s.dbg.debuggee = some d) (_hv : v < 2 ^ 64) :
    ∃ s', setRegOp s r v = .ok (s', [.getregs, .setregs], .Ok) ∧
      getRegOp s' r = .ok (v, [.getregs]) ∧
      (∀ r' : Register, r' ≠ r →
        getRegOp s' r' = .ok (regValue s.tracee.regs r', [.getregs])) ∧
      s'.dbg = s.dbg ∧ s'.tracee.mem = s.tracee.mem ∧
      s'.tracee.regs = regUpdate s.tracee.regs r v := by
  refine ⟨{ s with tracee := { s.tracee with regs := regUpdate s.tracee.regs r v } },
    ?_, ?_, ?_, rfl, rfl, rfl⟩
  · simp [setRegOp, hd]
  · simp [getRegOp, hd, regValue_regUpdate_same]
  · intro r' hne
    simp [getRegOp, hd, regValue_regUpdate_other s.tracee.regs r r' v hne]

/-- Witness for C6: set `rax` to 3 in the live session, read back `rax`
(3) and `rbx` (unchanged 0). -/
theorem set_reg_get_reg_roundtrip_witness :
    (setRegOp sesLive .rax 3).map (fun p => getRegOp p.1 .rax)
        = .ok (.ok (3, [.getregs])) ∧
      (setRegOp sesLive .rax 3).map (fun p => getRegOp p.1 .rbx)
        = .ok (.ok (0, [.getregs])) := by
  obtain ⟨s', h1, h2, h3, _⟩ := set_reg_get_reg_roundtrip sesLive
    { pid := 1, breakpoints := [], procMap := [0] } .rax 3 rfl (by norm_num)
  have h4 := h3 .rbx (by decide)
  rw [h1]
  constructor
  · simp [Except.map, h2]
  · simp only [Except.map]
    rw [h4]
    rfl

theorem bpLookup_bpModify (a : Addr) (f : Breakpoint → Breakpoint) :
    ∀ l : List (Addr × Breakpoint),
      bpLookup (bpModify l a f) a = (bpLookup l a).map f := by
  intro l
  induction l with
  | nil => rfl
  | cons x xs ih =>
    cases hx : (x.1 == a) with
    | true =>
      have hx' : x.1 = a := by simpa using hx
      simp [bpLookup, bpModify, List.find?_cons, hx, hx']
    | false =>
      have hx' : ¬x.1 = a := by simpa using hx
      simp only [bpLookup, bpModify, List.map_cons] at ih ⊢
      simp only [hx, Bool.false_eq_true, if_false]
      rw [List.find?_cons_of_neg _ (by simpa using hx'),
        List.find?_cons_of_neg _ (by simpa using hx')]
      exact ih

/-- **C1.** Before resuming, `step_over_bp` computes `probe = rip - 1`
and, when an enabled breakpoint is registered at `probe`, performs in
exactly this order: (a) rewind rip to `probe` (the one `set_reg`, i.e.
the `getregs, setregs` pair after the initial `getregs` of the probe
read — the tracee the machine then steps has `rip := probe`, see `ht2`),
(b) disable that breakpoint, (c) single-step and wait for the trap,
(d) re-enable the breakpoint; and `cont` runs `step_over_bp` first, then
`ptrace::cont`, then waits for the next trace-stop before returning
`Ok`.  The event traces state the order; the resulting session states
the effects (breakpoint re-armed: enabled with `0xCC` re-patched at
`probe`). -/
theorem step_over_bp_cont_sequence (ms mc : Tracee → Tracee) (s : Session)
    (d : Debuggee) (bp : Breakpoint) (p : Addr) (t2 : Tracee)
    (bps2 : List (Addr × Breakpoint))
    (hd : s.dbg.debuggee = some d)
    (hp : s.tracee.regs.rip - 1 = p)
    (hl : bpLookup d.breakpoints p = some bp)
    (he : bp.enabled = true)
    (ha : bp.addr = p)
    (ht2 : t2 = ms { regs := regUpdate s.tracee.regs .rip p,
                     mem := Function.update s.tracee.mem p (bp.savedByte.getD 0) })
    (hbps : bps2 = bpModify (bpModify d.breakpoints p fun _ => { bp with enabled := false })
        p fun _ => { bp with enabled := true, savedByte := some (t2.mem p) }) :
    stepOverBp ms s = some (.ok
      ({ dbg := { debuggee := some { d with breakpoints := bps2 } },
         tracee := { regs := t2.regs, mem := Function.update t2.mem p 0xCC } },
       [.getregs, .getregs, .setregs, .disableBp p, .singleStep, .waitpid, .enableBp p])) ∧
    contOp ms mc s = some (.ok
      ({ dbg := { debuggee := some { d with breakpoints := bps2 } },
         tracee := mc { regs := t2.regs, mem := Function.update t2.mem p 0xCC } },
       [.getregs, .getregs, .setregs, .disableBp p, .singleStep, .waitpid, .enableBp p,
        .ptraceCont, .waitpid], .Ok)) := by
  have hsob : stepOverBp ms s = some (.ok
      ({ dbg := { debuggee := some { d with breakpoints := bps2 } },
         tracee := { regs := t2.regs, mem := Function.update t2.mem p 0xCC } },
       [.getregs, .getregs, .setregs, .disableBp p, .singleStep, .waitpid,
        .enableBp p])) := by
    simp only [stepOverBp, getRegOp, setRegOp, singleStepOp, waitOp, hd, regValue,
      hp, hl, Option.elim, Breakpoint.is_enabled, he, if_true, Breakpoint.disable,
      Breakpoint.enable, ha, bpLookup_bpModify, Option.map_some, hbps, ht2]
    simp [ha]
  refine ⟨hsob, ?_⟩
  simp [contOp, hd, hsob, waitOp]

/-- An enabled breakpoint at address 16 whose saved original byte is the
NOP 0x90. -/
def bpArmed : Breakpoint :=
  { pid := 1, addr := 16, enabled := true, savedByte := some 0x90 }

/-- A session stopped just past that breakpoint: rip = 17 (one byte past
the patched 0xCC at 16), memory patched at 16. -/
def sesAtBp : Session :=
  { dbg := { debuggee := some { pid := 1, breakpoints := [(16, bpArmed)], procMap := [0] } },
    tracee := { regs := { regsZero with rip := 17 },
                mem := Function.update memNop 16 0xCC } }

/-- Witness for C1: the concrete stopped-at-breakpoint session with the
identity machine functions produces exactly the claimed event traces. -/
theorem step_over_bp_cont_sequence_witness :
    ((stepOverBp id sesAtBp).map (Except.map Prod.snd))
      = some (.ok [.getregs, .getregs, .setregs, .disableBp 16, .singleStep,
          .waitpid, .enableBp 16]) ∧
    ((contOp id id sesAtBp).map (Except.map fun x => x.2.1))
      = some (.ok [.getregs, .getregs, .setregs, .disableBp 16, .singleStep,
          .waitpid, .enableBp 16, .ptraceCont, .waitpid]) := by
  obtain ⟨h1, h2⟩ := step_over_bp_cont_sequence id id sesAtBp
    { pid := 1, breakpoints := [(16, bpArmed)], procMap := [0] } bpArmed 16 _ _
    rfl rfl rfl rfl rfl rfl rfl
  rw [h1, h2]
  exact ⟨rfl, rfl⟩

end Coreminer
